import Mathlib

/-!
# Verification of the screen-mirroring receiver core

Shallow embedding, in Lean 4, of the parts of `airplay_receiver.py` and
`src/webrtc/stream_manager.py` that the specification's claims are about:

* the TLV8 attribute codec (`tlv8_encode` / `tlv8_decode`);
* the `AirPlayCrypto` state and its operations (SRP verification,
  Curve25519 setup, shared-secret derivation, AEAD encrypt/decrypt, signing);
* the pair-setup / pair-verify request handlers;
* the video-stream demuxer loop body (`_process_video_stream`);
* the stream-sink registry (`StreamManager`).

Python `bytes` values are embedded as `List Nat` (each element a byte value).
Calls into external libraries (HKDF, the AEAD cipher, the Ed25519 signer, the
SRP session object) are modelled as explicit function-valued parameters, and
every `os.urandom` draw is an explicit argument, so all definitions stay
executable and the data flow of the source is preserved exactly.
A Python exception that escapes a request handler is modelled as
`Except.error ()`: the dispatcher `_handle_client` catches it and closes the
connection, so `Except.error` means "connection dropped".
-/

namespace Receiver

/-! ## TLV8 codec (`tlv8_encode` / `tlv8_decode`, airplay_receiver.py:78-113) -/

/-- Fragment of `tlv8_encode` for byte-string data (the `str`/`int` coercion at
the top of the Python function is outside the claims).  Splits the value into
255-byte chunks; a chunk is emitted only while data remains, so an empty value
produces the empty byte string. -/
def tlv8_encode (type_id : Nat) (data : List Nat) : List Nat :=
  if 255 < data.length then
    (type_id :: 255 :: data.take 255) ++ tlv8_encode type_id (data.drop 255)
  else if 0 < data.length then
    type_id :: data.length :: data
  else
    []
termination_by data.length
decreasing_by
  simp only [List.length_drop]
  omega

/-- Insertion-ordered dictionary update used by `tlv8_decode`: values under an
already-present key are concatenated in place (`result[type_id] += value`),
new keys are appended (`result[type_id] = value`), matching Python `dict`
insertion-order semantics. -/
def dictAdd (m : List (Nat × List Nat)) (t : Nat) (v : List Nat) :
    List (Nat × List Nat) :=
  match m with
  | [] => [(t, v)]
  | (t', v') :: rest =>
      if t' = t then (t', v' ++ v) :: rest else (t', v') :: dictAdd rest t v

/-- The scanning loop of `tlv8_decode`: reads `{type_id, length, value}`
records, stopping silently when fewer than two header bytes remain
(`i + 1 >= len(data)`) or the announced length overruns the buffer
(`i + length > len(data)`). -/
def tlv8_decodeAux (data : List Nat) (acc : List (Nat × List Nat)) :
    List (Nat × List Nat) :=
  match data with
  | [] => acc
  | [_] => acc
  | t :: l :: rest =>
      if l ≤ rest.length then
        tlv8_decodeAux (rest.drop l) (dictAdd acc t (rest.take l))
      else
        acc
termination_by data.length
decreasing_by
  simp only [List.length_drop, List.length_cons]
  omega

/-- `tlv8_decode` (airplay_receiver.py:95-113). -/
def tlv8_decode (data : List Nat) : List (Nat × List Nat) :=
  tlv8_decodeAux data []

/-- Python `mapping.get(type_id)` on the decoded dictionary. -/
def tlvGet (m : List (Nat × List Nat)) (t : Nat) : Option (List Nat) :=
  match m with
  | [] => none
  | (t', v) :: rest => if t' = t then some v else tlvGet rest t

/-- Modelled from the spec: the chunk split the specification describes for
`Encode` — chunks of at most 255 bytes, and a zero-length value still yields
one (empty) chunk. -/
def chunkSplit (v : List Nat) : List (List Nat) :=
  if 255 < v.length then v.take 255 :: chunkSplit (v.drop 255) else [v]
termination_by v.length
decreasing_by
  simp only [List.length_drop]
  omega

/-- Modelled from the spec: one `{type_id, chunk_length, chunk}` record. -/
def tlvRecord (type_id : Nat) (chunk : List Nat) : List Nat :=
  type_id :: chunk.length :: chunk

/-- Modelled from the spec: `Encode(type_id, value)` as §4.1 words it — one
record per chunk, "even for a zero-length value (empty value still emits one
record with length 0)". -/
def tlv8_encode_spec (type_id : Nat) (v : List Nat) : List Nat :=
  ((chunkSplit v).map (tlvRecord type_id)).flatten

/-! ## Crypto engine (`AirPlayCrypto`, airplay_receiver.py:116-389)

The state mirrors `AirPlayCrypto.__init__`.  The two module-availability
globals (`srp`, `CRYPTO_AVAILABLE`) are carried in the state since every
operation branches on them.  The srp library's `Verifier` object is opaque to
the receiver, so it is embedded as a record of its observable behaviour:
whether the `try` block raises (in the shipped code it always does, because
`pysrp` has no `set_A` method), and otherwise what `verify_session` returns
for a given client public value and proof (`none` models Python `None`). -/

structure SrpSession where
  raises : Bool
  verify_session : List Nat → List Nat → Option (List Nat)
  session_key : List Nat

structure Crypto where
  srpAvailable : Bool
  cryptoAvailable : Bool
  srp_session : Option SrpSession
  srp_key : Option (List Nat)
  srp_salt : Option (List Nat)
  ed_keys : Bool
  shared_secret : Option (List Nat)
  encryption_key : Option (List Nat)
  decryption_key : Option (List Nat)
  is_paired : Bool

/-- `AirPlayCrypto.__init__` (lines 119-140): every key slot `None`, not
paired.  The availability flags come from the import environment. -/
def initCrypto (srpA cryptoA : Bool) : Crypto :=
  { srpAvailable := srpA
    cryptoAvailable := cryptoA
    srp_session := none
    srp_key := none
    srp_salt := none
    ed_keys := false
    shared_secret := none
    encryption_key := none
    decryption_key := none
    is_paired := false }

/-- `setup_srp` (lines 142-188).  `rand16` is the `os.urandom(16)` salt and
`serverPub` the server public value the srp library (or the random fallback)
yields; `sess` is the constructed `srp.Verifier` object.  Without the srp
library the function returns random bytes and leaves the session unset. -/
def Crypto.setup_srp (c : Crypto) (rand16 serverPub : List Nat)
    (sess : Option SrpSession) : (List Nat × List Nat) × Crypto :=
  if ¬ c.srpAvailable then ((rand16, serverPub), c)
  else ((rand16, serverPub),
        { c with srp_salt := some rand16, srp_session := sess })

/-- `verify_srp` (lines 190-223).  Faithful to all three return paths:

* no srp library or no session → `return os.urandom(64)` (modelled `rand64`);
* the `try` block raises → `except` → `return os.urandom(64)`;
* otherwise `verify_session`; a non-empty proof is returned as-is (setting
  `srp_key`), an empty or `None` result becomes Python `None`.

Note the fallback and exception paths return *random bytes as a success
value*, exactly as the source does. -/
def Crypto.verify_srp (c : Crypto) (rand64 : List Nat)
    (client_public client_proof : List Nat) : Option (List Nat) × Crypto :=
  match c.srp_session with
  | none => (some rand64, c)
  | some s =>
      if ¬ c.srpAvailable then (some rand64, c)
      else if s.raises then (some rand64, c)
      else
        match s.verify_session client_public client_proof with
        | some p =>
            if p ≠ [] then (some p, { c with srp_key := some s.session_key })
            else (none, c)
        | none => (none, c)

/-- `setup_curve25519` (lines 225-252): generates a fresh Ed25519 key pair and
returns its raw public bytes (`keypairPub`), or 32 random bytes without the
cryptography library. -/
def Crypto.setup_curve25519 (c : Crypto) (rand32 keypairPub : List Nat) :
    List Nat × Crypto :=
  if ¬ c.cryptoAvailable then (rand32, c)
  else (keypairPub, { c with ed_keys := true })

/-- `compute_shared_secret` (lines 254-288).  The input key material is the
*concatenation of the two public keys* (`ikm = client_public_key +
server_public_key`, line 271) fed to HKDF-SHA512 with the fixed salt/info
pair; no Diffie-Hellman operation occurs anywhere in the body.  `hkdf` is the
library primitive `HKDF(salt, info).derive`. -/
def Crypto.compute_shared_secret (hkdf : String → String → List Nat → List Nat)
    (c : Crypto) (rand32 : List Nat) (client_public_key server_public_key : List Nat) :
    List Nat × Crypto :=
  if ¬ c.cryptoAvailable then (rand32, c)
  else
    let ikm := client_public_key ++ server_public_key
    let ss := hkdf "Pair-Verify-Encrypt-Salt" "Pair-Verify-Encrypt-Info" ikm
    (ss, { c with shared_secret := some ss })

/-- `encrypt_data` (lines 290-330).  Derives (and caches) the encryption key
from the shared secret on first use, then applies the AEAD cipher; without the
library or a shared secret returns `len(plaintext) + 16` random bytes
(`randCt`). -/
def Crypto.encrypt_data (hkdf : String → String → List Nat → List Nat)
    (aeadEnc : List Nat → List Nat → List Nat → List Nat)
    (c : Crypto) (randCt nonce plaintext : List Nat) : List Nat × Crypto :=
  match c.shared_secret with
  | none => (randCt, c)
  | some ss =>
      if ¬ c.cryptoAvailable then (randCt, c)
      else
        let key := (c.encryption_key).getD
          (hkdf "Pair-Verify-Encrypt-Salt" "Pair-Verify-Encrypt-Info" ss)
        (aeadEnc key nonce plaintext, { c with encryption_key := some key })

/-- `decrypt_data` (lines 332-369).  The *only* place in the repository that
assigns `decryption_key` (line 357).  The key is derived on first use with the
decrypt-direction salt/info; an AEAD authentication failure (`aeadDec` =
`none`) is caught and returned as Python `None`, with the derived key kept. -/
def Crypto.decrypt_data (hkdf : String → String → List Nat → List Nat)
    (aeadDec : List Nat → List Nat → List Nat → Option (List Nat))
    (c : Crypto) (ciphertext nonce : List Nat) : Option (List Nat) × Crypto :=
  match c.shared_secret with
  | none => (none, c)
  | some ss =>
      if ¬ c.cryptoAvailable then (none, c)
      else
        let key := (c.decryption_key).getD
          (hkdf "Pair-Verify-Decrypt-Salt" "Pair-Verify-Decrypt-Info" ss)
        (aeadDec key nonce ciphertext, { c with decryption_key := some key })

/-- `sign_data` (lines 371-389): Ed25519 signature by the library (`sig`), or
64 random bytes without the library or a generated key pair. -/
def Crypto.sign_data (c : Crypto) (rand64 : List Nat)
    (sig : List Nat → List Nat) (data : List Nat) : List Nat :=
  if ¬ c.cryptoAvailable ∨ ¬ c.ed_keys then rand64 else sig data

/-! ## Pairing state machine (`_handle_pair_setup` / `_handle_pair_verify`,
airplay_receiver.py:745-861)

Each handler maps the decoded request body to the TLV response body it writes
and the updated crypto state.  `Except.error ()` models an uncaught Python
exception: `_handle_client` (line 669) catches it, logs, and closes the
connection in its `finally` block — i.e. the connection is dropped. -/

/-- External-library behaviour and the `os.urandom` draws made while handling
one request. -/
structure Env where
  hkdf : String → String → List Nat → List Nat
  aeadEnc : List Nat → List Nat → List Nat → List Nat
  aeadDec : List Nat → List Nat → List Nat → Option (List Nat)
  sign : List Nat → List Nat
  rand16 : List Nat
  rand32 : List Nat
  rand64 : List Nat
  randCt : List Nat
  nonce12 : List Nat
  serverPub384 : List Nat
  newSession : Option SrpSession
  keypairPub : List Nat
  deviceId : List Nat

/-- Python `bytes([n])`: a one-byte string, raising `ValueError` when the
value does not fit in a byte (this is what happens to `bytes([state + 1])`
for a received state byte of 255). -/
def pyByte (n : Nat) : Except Unit (List Nat) :=
  if n < 256 then .ok [n] else .error ()

/-- `_handle_pair_setup` (lines 745-798).  The received state byte is
`request_tlv.get(0x06, b'\x01')[0]`; indexing an empty 0x06 value raises.
State 1 runs `setup_srp`; state 3 runs `verify_srp` and, following
`if server_proof:`, answers with the proof (truthy) or error code 2; any
other state answers `bytes([state + 1])` plus error code 1. -/
def handle_pair_setup (env : Env) (c : Crypto) (body : List Nat) :
    Except Unit (List Nat × Crypto) :=
  let request_tlv := tlv8_decode body
  match (tlvGet request_tlv 6).getD [1] with
  | [] => .error ()
  | state :: _ =>
    if state = 1 then
      let r := c.setup_srp env.rand16 env.serverPub384 env.newSession
      .ok (tlv8_encode 6 [2] ++ tlv8_encode 2 r.1.1 ++
           tlv8_encode 3 r.1.2, r.2)
    else if state = 3 then
      let client_public := (tlvGet request_tlv 3).getD []
      let client_proof := (tlvGet request_tlv 4).getD []
      let r := c.verify_srp env.rand64 client_public client_proof
      let tlv := tlv8_encode 6 [4]
      if r.1.getD [] ≠ [] then
        .ok (tlv ++ tlv8_encode 4 (r.1.getD []), r.2)
      else
        .ok (tlv ++ tlv8_encode 7 [2], r.2)
    else
      match pyByte (state + 1) with
      | .ok sb => .ok (tlv8_encode 6 sb ++ tlv8_encode 7 [1], c)
      | .error e => .error e

/-- `_handle_pair_verify` (lines 800-861).  State 1 generates the server key
pair, derives the shared secret, signs `server_public ‖ client_public` and
encrypts `device_info ‖ signature`.  State 3 — quoting the source, "In a full
implementation, we would decrypt and verify / For now, just accept" — reads
the 0x05 attribute but performs no decryption or verification and sets
`is_paired` unconditionally, answering state 4 with no further attributes.
Any other state answers `bytes([state + 1])` plus error code 1. -/
def handle_pair_verify (env : Env) (c : Crypto) (body : List Nat) :
    Except Unit (List Nat × Crypto) :=
  let request_tlv := tlv8_decode body
  match (tlvGet request_tlv 6).getD [1] with
  | [] => .error ()
  | state :: _ =>
    if state = 1 then
      let client_public := (tlvGet request_tlv 3).getD []
      let r1 := c.setup_curve25519 env.rand32 env.keypairPub
      let server_public := r1.1
      let r2 := Crypto.compute_shared_secret env.hkdf r1.2 env.rand32
        client_public server_public
      let sign_input := server_public ++ client_public
      let signature := r2.2.sign_data env.rand64 env.sign sign_input
      let device_info := 0 :: env.deviceId
      let plaintext := device_info ++ signature
      let r3 := Crypto.encrypt_data env.hkdf env.aeadEnc r2.2
        env.randCt env.nonce12 plaintext
      .ok (tlv8_encode 6 [2] ++ tlv8_encode 3 server_public ++
           tlv8_encode 5 r3.1, r3.2)
    else if state = 3 then
      let _encrypted_data := (tlvGet request_tlv 5).getD []
      .ok (tlv8_encode 6 [4], { c with is_paired := true })
    else
      match pyByte (state + 1) with
      | .ok sb => .ok (tlv8_encode 6 sb ++ tlv8_encode 7 [1], c)
      | .error e => .error e

/-! ## Stream demuxer (`_process_video_stream` loop body,
airplay_receiver.py:996-1048)

One iteration of the `while self.running` loop, for one chunk returned by
`reader.read(8192)`.  `buffer.find(b'\x00\x00\x00\x01', i)` is modelled by a
linear scan returning the least match position (or `none`, Python's `-1`). -/

/-- The 4-byte H.264 Annex-B start marker `00 00 00 01`. -/
def marker : List Nat := [0, 0, 0, 1]

/-- Whether the 4 bytes of `l` starting at `i` are the start marker. -/
def isMarkerAt (l : List Nat) (i : Nat) : Bool :=
  l[i]? == some 0 && l[i + 1]? == some 0 && l[i + 2]? == some 0 &&
    l[i + 3]? == some 1

/-- `buffer.find(b'\x00\x00\x00\x01', i)`: least `j ≥ i` with a marker at
`j`, else `none`. -/
def findMarkerFrom (l : List Nat) (i : Nat) : Option Nat :=
  if l.length ≤ i then none
  else if isMarkerAt l i then some i
  else findMarkerFrom l (i + 1)
termination_by l.length - i

/-- No start marker occurs anywhere in `l`. -/
def markerFree (l : List Nat) : Prop :=
  ∀ i, isMarkerAt l i = false

instance (l : List Nat) : Decidable (markerFree l) :=
  decidable_of_iff (∀ i < l.length, isMarkerAt l i = false) (by
    constructor
    · intro h i
      by_cases hi : i < l.length
      · exact h i hi
      · unfold isMarkerAt
        rw [List.getElem?_eq_none (l := l) (n := i) (by omega)]
        rfl
    · intro h i _
      exact h i)


/-- The NAL-extraction block (lines 1017-1038), applied to the buffer with the
chunk already appended: once more than 1024 bytes are buffered, look for two
start markers; the slice `buffer[nal_start:next_nal]` is handed to
`decoder.decode_frame` and the buffer becomes `buffer[next_nal:]`. -/
def demuxExtract (buf : List Nat) : List Nat × Option (List Nat) :=
  if 1024 < buf.length then
    match findMarkerFrom buf 0 with
    | some nal_start =>
        match findMarkerFrom buf (nal_start + 4) with
        | some next_nal =>
            (buf.drop next_nal,
             some ((buf.drop nal_start).take (next_nal - nal_start)))
        | none => (buf, none)
    | none => (buf, none)
  else (buf, none)

/-- Extraction followed by the back-pressure trim (lines 1040-1042): when the
buffer exceeds 1 MiB, keep only `buffer[-1024*1024:]`. -/
def demuxStep (buf : List Nat) : List Nat × Option (List Nat) :=
  if 1048576 < (demuxExtract buf).1.length then
    ((demuxExtract buf).1.drop ((demuxExtract buf).1.length - 1048576),
     (demuxExtract buf).2)
  else demuxExtract buf

/-- One full loop iteration on an inbound chunk (lines 1003-1042): decrypt
only when `is_paired` and `decryption_key` are both truthy (a failed
decryption `continue`s, skipping extraction and trim); otherwise append the
chunk as-is; then demux. -/
def streamStep (env : Env) (c : Crypto) (buffer data : List Nat) :
    Crypto × List Nat × Option (List Nat) :=
  if c.is_paired && !(c.decryption_key.getD []).isEmpty then
    let nonce := data.take 12
    let ciphertext := data.drop 12
    let (decrypted, c') := Crypto.decrypt_data env.hkdf env.aeadDec c
      ciphertext nonce
    match decrypted with
    | some dec =>
        let r := demuxStep (buffer ++ dec)
        (c', r.1, r.2)
    | none => (c', buffer, none)
  else
    let r := demuxStep (buffer ++ data)
    (c, r.1, r.2)

/-- Iterate `streamStep` over a list of chunk deliveries, collecting every
byte string submitted to the decoder, in order. -/
def streamFeed (env : Env) (c : Crypto) (buffer : List Nat) :
    List (List Nat) → Crypto × List Nat × List (List Nat)
  | [] => (c, buffer, [])
  | d :: ds =>
      let r := streamStep env c buffer d
      let rest := streamFeed env r.1 r.2.1 ds
      (rest.1, rest.2.1, (r.2.2.toList) ++ rest.2.2)

/-- The final 1 MiB of a byte string (all of it when shorter), i.e. Python
`b[-1048576:]`. -/
def retained (l : List Nat) : List Nat :=
  l.drop (l.length - 1048576)


/-! ## Receiver event machine

Everything that can mutate the receiver's single `AirPlayCrypto` object
(`self.crypto`): a pair-setup request, a pair-verify request, an inbound
stream chunk, or any of the remaining endpoints (`/info`, `/server-info`,
`/fp-setup`, `/feedback`, `/reverse`, unknown paths), none of which touch the
crypto state.  The state also carries the demux buffer.  Since `self.crypto`
is shared by every connection, an arbitrary event list covers any
interleaving of clients. -/

inductive Event where
  | pairSetup (body : List Nat)
  | pairVerify (body : List Nat)
  | streamChunk (data : List Nat)
  | otherRequest

/-- One dispatcher step.  A handler exception leaves the crypto object as it
was (the connection is closed, the receiver-wide crypto persists). -/
def stepEvent (env : Env) (s : Crypto × List Nat) : Event → Crypto × List Nat
  | .pairSetup body =>
      match handle_pair_setup env s.1 body with
      | .ok (_, c') => (c', s.2)
      | .error _ => (s.1, s.2)
  | .pairVerify body =>
      match handle_pair_verify env s.1 body with
      | .ok (_, c') => (c', s.2)
      | .error _ => (s.1, s.2)
  | .streamChunk d =>
      let r := streamStep env s.1 s.2 d
      (r.1, r.2.1)
  | .otherRequest => s

def runEvents (env : Env) (s : Crypto × List Nat) :
    List Event → Crypto × List Nat
  | [] => s
  | e :: es => runEvents env (stepEvent env s e) es

/-! ## Stream sink (`StreamManager`, src/webrtc/stream_manager.py) -/

structure StreamEntry where
  frame : Option Nat
  name : String
  timestamp : Nat

structure StreamManager where
  max_streams : Nat
  streams : List (String × StreamEntry)

/-- Python dict assignment `self.streams[client_id] = {...}`: overwrite in
place, or append a new key. -/
def dictSet (m : List (String × StreamEntry)) (k : String) (v : StreamEntry) :
    List (String × StreamEntry) :=
  match m with
  | [] => [(k, v)]
  | (k', v') :: rest =>
      if k' = k then (k', v) :: rest else (k', v') :: dictSet rest k v

def dictHas (m : List (String × StreamEntry)) (k : String) : Bool :=
  match m with
  | [] => false
  | (k', _) :: rest => if k' = k then true else dictHas rest k

/-- `StreamManager.add_stream` (lines 32-69), in the AirPlay call shape
`add_stream(client_id, frame, name)`: refuse (returning `False`) whenever the
stream count is already at `max_streams`, otherwise store the entry and
return `True`.  Frames are opaque handles here. -/
def StreamManager.add_stream (m : StreamManager) (client_id : String)
    (frame : Option Nat) (name : String) (now : Nat) : Bool × StreamManager :=
  if m.max_streams ≤ m.streams.length then (false, m)
  else (true, { m with streams := dictSet m.streams client_id ⟨frame, name, now⟩ })

/-- `StreamManager.update_frame` (lines 71-82): update only an existing entry;
an unknown `client_id` is silently ignored. -/
def StreamManager.update_frame (m : StreamManager) (client_id : String)
    (frame : Nat) (now : Nat) : StreamManager :=
  if dictHas m.streams client_id then
    { m with streams := dictSet m.streams client_id ⟨some frame, "", now⟩ }
  else m

/-- Outcome of starting an AirPlay stream session. -/
structure StreamStartResult where
  status : Nat
  registered : Bool
  streaming : Bool

/-- The session-start portion of `_handle_stream` / `_process_video_stream`
(airplay_receiver.py:948-990): an `HTTP/1.1 200 OK` is written *before* any
capacity check (line 957), then `add_stream` is called with its boolean
result discarded (line 990), and the ingest loop is entered unconditionally
(`streaming := true`). -/
def handle_stream_start (m : StreamManager) (client_id device_name : String)
    (now : Nat) : StreamStartResult × StreamManager :=
  let r := m.add_stream client_id (some 0) ("AirPlay: " ++ device_name) now
  ({ status := 200, registered := r.1, streaming := true }, r.2)

/-! ## Concrete instances used by witnesses and counterexamples -/

/-- A concrete environment: placeholder primitives and fixed random draws,
used only to instantiate theorems at closed inputs. -/
def envA : Env :=
  { hkdf := fun _ _ ikm => ikm.take 32
    aeadEnc := fun _ _ pt => pt ++ List.replicate 16 0
    aeadDec := fun _ _ ct => some ct
    sign := fun d => d.take 64
    rand16 := List.replicate 16 1
    rand32 := List.replicate 32 2
    rand64 := List.replicate 64 9
    randCt := List.replicate 16 3
    nonce12 := List.replicate 12 4
    serverPub384 := List.replicate 384 5
    newSession := none
    keypairPub := List.replicate 32 6
    deviceId := [65, 66] }

/-- A sink already at its capacity (one slot, one registered stream). -/
def mgrFull : StreamManager :=
  { max_streams := 1, streams := [("a", ⟨none, "X", 0⟩)] }

/-- A 1021-byte marker-free unit body used to exercise the demuxer. -/
def demoA : List Nat := List.replicate 1021 2

/-- A second unit body following the second marker. -/
def demoB : List Nat := [3]

/-! ## Lemma development and claim theorems -/

/-! ### Codec lemmas -/

/-- Concatenating two updates under the same key equals one combined update. -/
theorem dictAdd_dictAdd (m : List (Nat × List Nat)) (t : Nat) (a b : List Nat) :
    dictAdd (dictAdd m t a) t b = dictAdd m t (a ++ b) := by
  induction m with
  | nil => simp [dictAdd]
  | cons hd rest ih =>
      obtain ⟨t', v'⟩ := hd
      by_cases h : t' = t
      · subst h
        simp [dictAdd, List.append_assoc]
      · simp [dictAdd, h, ih]

/-- Decoding the encoding of a non-empty value folds all its chunks back into
a single dictionary update under `t`. -/
theorem tlv8_decodeAux_encode (t : Nat) (v : List Nat)
    (acc : List (Nat × List Nat)) (hv : v ≠ []) :
    tlv8_decodeAux (tlv8_encode t v) acc = dictAdd acc t v := by
  by_cases h : 255 < v.length
  · have htl : (v.take 255).length = 255 := by
      simp [List.length_take]
      omega
    have hdl : (v.drop 255).length = v.length - 255 := by
      simp
    rw [tlv8_encode]
    simp only [h, if_true]
    have hshape :
        (t :: 255 :: v.take 255) ++ tlv8_encode t (v.drop 255)
          = t :: 255 :: (v.take 255 ++ tlv8_encode t (v.drop 255)) := by
      simp
    rw [hshape, tlv8_decodeAux]
    have hle : 255 ≤ (v.take 255 ++ tlv8_encode t (v.drop 255)).length := by
      simp [htl]
    simp only [hle, if_true]
    rw [List.take_left' htl, List.drop_left' htl]
    rw [tlv8_decodeAux_encode t (v.drop 255) _ (by
      intro hnil
      have := congrArg List.length hnil
      simp at this
      omega)]
    rw [dictAdd_dictAdd, List.take_append_drop]
  · rw [tlv8_encode]
    simp only [h, if_false]
    have hpos : 0 < v.length := List.length_pos.mpr hv
    simp only [hpos, if_true]
    rw [tlv8_decodeAux]
    simp [tlv8_decodeAux]
termination_by v.length
decreasing_by
  simp only [List.length_drop]
  omega

/-- Looking up the key just written from an empty dictionary. -/
theorem tlvGet_decode_encode (t : Nat) (v : List Nat) (hv : v ≠ []) :
    tlvGet (tlv8_decode (tlv8_encode t v)) t = some v := by
  unfold tlv8_decode
  rw [tlv8_decodeAux_encode t v [] hv]
  simp [dictAdd, tlvGet]

/-- Decoding past the encoding of one non-empty value continues into the rest
of the buffer with the dictionary updated. -/
theorem tlv8_decodeAux_encode_append (t : Nat) (v rest : List Nat)
    (acc : List (Nat × List Nat)) (hv : v ≠ []) :
    tlv8_decodeAux (tlv8_encode t v ++ rest) acc
      = tlv8_decodeAux rest (dictAdd acc t v) := by
  by_cases h : 255 < v.length
  · have htl : (v.take 255).length = 255 := by
      simp [List.length_take]
      omega
    rw [tlv8_encode]
    simp only [h, if_true]
    have hshape :
        ((t :: 255 :: v.take 255) ++ tlv8_encode t (v.drop 255)) ++ rest
          = t :: 255 :: (v.take 255 ++ (tlv8_encode t (v.drop 255) ++ rest)) := by
      simp
    rw [hshape, tlv8_decodeAux]
    have hle : 255 ≤ (v.take 255 ++ (tlv8_encode t (v.drop 255) ++ rest)).length := by
      simp [htl]
    simp only [hle, if_true]
    rw [List.take_left' htl, List.drop_left' htl]
    rw [tlv8_decodeAux_encode_append t (v.drop 255) rest _ (by
      intro hnil
      have := congrArg List.length hnil
      simp at this
      omega)]
    rw [dictAdd_dictAdd, List.take_append_drop]
  · rw [tlv8_encode]
    simp only [h, if_false]
    have hpos : 0 < v.length := List.length_pos.mpr hv
    simp only [hpos, if_true]
    have hshape : (t :: v.length :: v) ++ rest = t :: v.length :: (v ++ rest) := by
      simp
    rw [hshape, tlv8_decodeAux]
    have hle : v.length ≤ (v ++ rest).length := by
      simp
    simp only [hle, if_true]
    rw [List.take_left, List.drop_left]
termination_by v.length
decreasing_by
  simp only [List.length_drop]
  omega

/-- For a non-empty value the source encoder agrees with the record-per-chunk
encoder written from the specification's words. -/
theorem tlv8_encode_eq_spec (t : Nat) (v : List Nat) (hv : v ≠ []) :
    tlv8_encode t v = tlv8_encode_spec t v := by
  by_cases h : 255 < v.length
  · have htl : (v.take 255).length = 255 := by
      simp [List.length_take]
      omega
    rw [tlv8_encode, tlv8_encode_spec, chunkSplit]
    simp only [h, if_true, List.map_cons, List.flatten_cons]
    rw [tlv8_encode_eq_spec t (v.drop 255) (by
      intro hnil
      have := congrArg List.length hnil
      simp at this
      omega)]
    simp [tlvRecord, htl, tlv8_encode_spec]
  · rw [tlv8_encode, tlv8_encode_spec, chunkSplit]
    have hpos : 0 < v.length := List.length_pos.mpr hv
    simp [h, hpos, tlvRecord]
termination_by v.length
decreasing_by
  simp only [List.length_drop]
  omega

/-- Bool-level unfolding of a successful marker test. -/
theorem isMarkerAt_eq_true_iff (l : List Nat) (i : Nat) :
    isMarkerAt l i = true ↔
      l[i]? = some 0 ∧ l[i + 1]? = some 0 ∧ l[i + 2]? = some 0 ∧
        l[i + 3]? = some 1 := by
  unfold isMarkerAt
  simp [Bool.and_eq_true, and_assoc]

/-! ### Demuxer lemmas -/

/-- A byte string not containing the byte `1` cannot contain the marker. -/
theorem markerFree_of_one_not_mem (l : List Nat) (h : (1 : Nat) ∉ l) :
    markerFree l := by
  intro i
  rw [Bool.eq_false_iff]
  intro hc
  rw [isMarkerAt_eq_true_iff] at hc
  exact h (List.getElem?_mem hc.2.2.2)

theorem markerFree_drop (l : List Nat) (n : Nat) (h : markerFree l) :
    markerFree (l.drop n) := by
  intro i
  unfold isMarkerAt
  rw [List.getElem?_drop, List.getElem?_drop, List.getElem?_drop,
      List.getElem?_drop]
  have h' := h (n + i)
  unfold isMarkerAt at h'
  rw [show n + (i + 1) = n + i + 1 by omega, show n + (i + 2) = n + i + 2 by omega,
      show n + (i + 3) = n + i + 3 by omega]
  exact h'

theorem markerFree_take (l : List Nat) (n : Nat) (h : markerFree l) :
    markerFree (l.take n) := by
  intro i
  rw [Bool.eq_false_iff]
  intro hc
  rw [isMarkerAt_eq_true_iff] at hc
  obtain ⟨h0, h1, h2, h3⟩ := hc
  have hin : i + 3 < n := by
    by_contra hge
    rw [List.getElem?_take_eq_none (by omega)] at h3
    exact Option.noConfusion h3
  rw [List.getElem?_take_of_lt (show i < n by omega)] at h0
  rw [List.getElem?_take_of_lt (show i + 1 < n by omega)] at h1
  rw [List.getElem?_take_of_lt (show i + 2 < n by omega)] at h2
  rw [List.getElem?_take_of_lt (show i + 3 < n by omega)] at h3
  have htrue : isMarkerAt l i = true :=
    (isMarkerAt_eq_true_iff l i).mpr ⟨h0, h1, h2, h3⟩
  rw [h i] at htrue
  exact Bool.noConfusion htrue

/-- Testing for a marker beyond a fixed prefix tests the suffix. -/
theorem isMarkerAt_shift (pre l : List Nat) (j : Nat) :
    isMarkerAt (pre ++ l) (pre.length + j) = isMarkerAt l j := by
  unfold isMarkerAt
  have e : ∀ i, pre.length ≤ i → (pre ++ l)[i]? = l[i - pre.length]? :=
    fun i h => List.getElem?_append_right h
  rw [e (pre.length + j) (by omega), e (pre.length + j + 1) (by omega),
      e (pre.length + j + 2) (by omega), e (pre.length + j + 3) (by omega)]
  rw [show pre.length + j - pre.length = j by omega,
      show pre.length + j + 1 - pre.length = j + 1 by omega,
      show pre.length + j + 2 - pre.length = j + 2 by omega,
      show pre.length + j + 3 - pre.length = j + 3 by omega]

/-- Inside `A ++ marker ++ B` with `A` marker-free, no marker starts before
the end of `A`: a window straddling the boundary would need its fourth byte
to be `1`, but the marker head supplies only zeros there. -/
theorem isMarkerAt_straddle (A B : List Nat) (hA : markerFree A)
    (j : Nat) (hj : j < A.length) :
    isMarkerAt (A ++ (marker ++ B)) j = false := by
  by_cases hin : j + 3 < A.length
  · unfold isMarkerAt
    rw [List.getElem?_append_left (by omega), List.getElem?_append_left (by omega),
        List.getElem?_append_left (by omega), List.getElem?_append_left (by omega)]
    have h' := hA j
    unfold isMarkerAt at h'
    exact h'
  · rw [Bool.eq_false_iff]
    intro hc
    rw [isMarkerAt_eq_true_iff] at hc
    have h4 : (A ++ (marker ++ B))[j + 3]? = (marker ++ B)[j + 3 - A.length]? :=
      List.getElem?_append_right (by omega)
    have hr : j + 3 - A.length = 0 ∨ j + 3 - A.length = 1 ∨
        j + 3 - A.length = 2 := by omega
    have hz : (marker ++ B)[j + 3 - A.length]? = some 0 := by
      rcases hr with h | h | h <;> rw [h] <;> rfl
    rw [h4, hz] at hc
    exact absurd hc.2.2.2 (by simp)

/-- `find` returns `none` when no position at or after `i` carries a marker. -/
theorem findMarkerFrom_eq_none (l : List Nat) (i : Nat)
    (h : ∀ j, i ≤ j → isMarkerAt l j = false) : findMarkerFrom l i = none := by
  rw [findMarkerFrom]
  by_cases hl : l.length ≤ i
  · simp [hl]
  · rw [if_neg hl, if_neg (by simp [h i (Nat.le_refl i)])]
    exact findMarkerFrom_eq_none l (i + 1) (fun j hj => h j (by omega))
termination_by l.length - i

/-- `find` returns the least marker position at or after `i`. -/
theorem findMarkerFrom_eq_some (l : List Nat) (i k : Nat) (hik : i ≤ k)
    (hk : isMarkerAt l k = true)
    (hno : ∀ j, i ≤ j → j < k → isMarkerAt l j = false) :
    findMarkerFrom l i = some k := by
  have hkl : k < l.length := by
    by_contra he
    rw [isMarkerAt_eq_true_iff] at hk
    rw [List.getElem?_eq_none (by omega)] at hk
    exact Option.noConfusion hk.1
  rw [findMarkerFrom, if_neg (by omega)]
  by_cases he : i = k
  · subst he
    rw [if_pos hk]
  · rw [if_neg (by simp [hno i (Nat.le_refl i) (by omega)])]
    exact findMarkerFrom_eq_some l (i + 1) k (by omega) hk
      (fun j hj hjk => hno j (by omega) hjk)
termination_by k - i

theorem findMarkerFrom_none_of_markerFree (l : List Nat) (h : markerFree l)
    (i : Nat) : findMarkerFrom l i = none :=
  findMarkerFrom_eq_none l i (fun j _ => h j)

/-- A buffer that starts with the marker has its first marker at position 0. -/
theorem findMarkerFrom_marker_first (rest : List Nat) :
    findMarkerFrom (marker ++ rest) 0 = some 0 := by
  apply findMarkerFrom_eq_some _ _ _ (Nat.le_refl 0)
  · rw [isMarkerAt_eq_true_iff]
    simp [marker]
  · intro j h1 h2
    omega

/-- In `marker ++ A ++ marker ++ B` with `A` marker-free, the first marker at
or after position 4 sits exactly at `4 + A.length`. -/
theorem findMarkerFrom_after_head (A B : List Nat) (hA : markerFree A) :
    findMarkerFrom (marker ++ (A ++ (marker ++ B))) 4 = some (4 + A.length) := by
  apply findMarkerFrom_eq_some _ _ _ (by omega)
  · have h1 : isMarkerAt (marker ++ (A ++ (marker ++ B))) (4 + A.length)
        = isMarkerAt (A ++ (marker ++ B)) A.length :=
      isMarkerAt_shift marker (A ++ (marker ++ B)) A.length
    have h2 : isMarkerAt (A ++ (marker ++ B)) (A.length + 0)
        = isMarkerAt (marker ++ B) 0 :=
      isMarkerAt_shift A (marker ++ B) 0
    rw [h1, show A.length = A.length + 0 by omega, h2]
    rw [isMarkerAt_eq_true_iff]
    simp [marker]
  · intro j h4 hlt
    obtain ⟨j', rfl⟩ : ∃ j', j = 4 + j' := ⟨j - 4, by omega⟩
    have hs : isMarkerAt (marker ++ (A ++ (marker ++ B))) (4 + j')
        = isMarkerAt (A ++ (marker ++ B)) j' :=
      isMarkerAt_shift marker (A ++ (marker ++ B)) j'
    rw [hs]
    exact isMarkerAt_straddle A B hA j' (by omega)

theorem retained_of_le (l : List Nat) (h : l.length ≤ 1048576) :
    retained l = l := by
  unfold retained
  rw [Nat.sub_eq_zero_of_le h, List.drop_zero]

theorem retained_length (l : List Nat) : (retained l).length ≤ 1048576 := by
  unfold retained
  rw [List.length_drop]
  omega

/-- Trimming, appending, then trimming again is one trim of the whole. -/
theorem retained_append_retained (Y R : List Nat) :
    retained (retained Y ++ R) = retained (Y ++ R) := by
  unfold retained
  rw [← List.drop_append_of_le_length (Nat.sub_le _ _)]
  generalize hm : Y.length - 1048576 = k
  generalize hn : (List.drop k (Y ++ R)).length - 1048576 = n
  have hn' : Y.length + R.length - k - 1048576 = n := by
    rw [← hn, List.length_drop, List.length_append]
  rw [List.drop_drop]
  have hidx : k + n = (Y ++ R).length - 1048576 := by
    rw [List.length_append]
    omega
  rw [hidx]

/-- Extraction is the identity on a marker-free buffer. -/
theorem demuxExtract_markerFree (buf : List Nat) (h : markerFree buf) :
    demuxExtract buf = (buf, none) := by
  unfold demuxExtract
  split
  · rw [findMarkerFrom_none_of_markerFree buf h 0]
  · rfl

theorem demuxStep_markerFree (buf : List Nat) (h : markerFree buf) :
    demuxStep buf = (retained buf, none) := by
  unfold demuxStep
  rw [demuxExtract_markerFree buf h]
  by_cases hcap : 1048576 < buf.length
  · rw [if_pos hcap]
    rfl
  · rw [if_neg hcap, retained_of_le buf (Nat.le_of_not_lt hcap)]

/-- The trim bounds the buffer after every iteration. -/
theorem demuxStep_length_le (buf : List Nat) :
    ((demuxStep buf).1).length ≤ 1048576 := by
  unfold demuxStep
  split
  next h =>
    simp only [List.length_drop]
    omega
  next h =>
    exact Nat.le_of_not_lt h

/-- With two markers in a buffer over the 1024-byte threshold and under the
cap, one step extracts the start-code-prefixed first unit and leaves the
buffer beginning at the second marker. -/
theorem demuxStep_two_markers (A B : List Nat) (hA : markerFree A)
    (hlen : 1024 < 8 + A.length + B.length)
    (hcap : 8 + A.length + B.length ≤ 1048576) :
    demuxStep ((marker ++ A) ++ (marker ++ B))
      = (marker ++ B, some (marker ++ A)) := by
  have hL : (marker ++ A) ++ (marker ++ B) = marker ++ (A ++ (marker ++ B)) := by
    simp
  have hlength : ((marker ++ A) ++ (marker ++ B)).length
      = 8 + A.length + B.length := by
    simp [marker]
    omega
  have hf0 : findMarkerFrom ((marker ++ A) ++ (marker ++ B)) 0 = some 0 := by
    rw [hL]
    exact findMarkerFrom_marker_first _
  have hf4 : findMarkerFrom ((marker ++ A) ++ (marker ++ B)) (0 + 4)
      = some (4 + A.length) := by
    rw [hL, Nat.zero_add]
    exact findMarkerFrom_after_head A B hA
  have hmA : (marker ++ A).length = 4 + A.length := by
    simp [marker]
    omega
  have hext : demuxExtract ((marker ++ A) ++ (marker ++ B))
      = (marker ++ B, some (marker ++ A)) := by
    unfold demuxExtract
    rw [if_pos (by rw [hlength]; omega), hf0]
    simp only [hf4]
    rw [List.drop_zero, Nat.sub_zero, List.drop_left' hmA, List.take_left' hmA]
  unfold demuxStep
  rw [hext]
  rw [if_neg (by simp [marker]; omega)]

/-- With a single leading marker and a marker-free tail, one step extracts
nothing and leaves the buffer unchanged (whatever its length relative to the
1024-byte threshold, as long as it is within the cap). -/
theorem demuxStep_no_second (A : List Nat) (hA : markerFree A)
    (hcap : 4 + A.length ≤ 1048576) :
    demuxStep (marker ++ A) = (marker ++ A, none) := by
  have hlen : (marker ++ A).length = 4 + A.length := by
    simp [marker]
    omega
  have hext : demuxExtract (marker ++ A) = (marker ++ A, none) := by
    unfold demuxExtract
    split
    · rw [findMarkerFrom_marker_first A]
      have hf4 : findMarkerFrom (marker ++ A) (0 + 4) = none := by
        apply findMarkerFrom_eq_none
        intro j hj
        obtain ⟨j', rfl⟩ : ∃ j', j = 4 + j' := ⟨j - 4, by omega⟩
        have hs : isMarkerAt (marker ++ A) (4 + j') = isMarkerAt A j' :=
          isMarkerAt_shift marker A j'
        rw [hs]
        exact hA j'
      simp only [hf4]
    · rfl
  unfold demuxStep
  rw [hext]
  rw [if_neg (by rw [hlen]; omega)]

/-- When no decryption key has been derived, an iteration appends the chunk
verbatim and demuxes, leaving the crypto state untouched. -/
theorem streamStep_plain (env : Env) (c : Crypto) (buffer data : List Nat)
    (h : c.decryption_key = none) :
    streamStep env c buffer data
      = (c, (demuxStep (buffer ++ data)).1, (demuxStep (buffer ++ data)).2) := by
  unfold streamStep
  rw [h]
  simp

theorem streamStep_length_le (env : Env) (c : Crypto) (buffer data : List Nat)
    (h : buffer.length ≤ 1048576) :
    ((streamStep env c buffer data).2.1).length ≤ 1048576 := by
  unfold streamStep
  split
  · dsimp only
    rcases hdd : Crypto.decrypt_data env.hkdf env.aeadDec c (data.drop 12)
        (data.take 12) with ⟨dec, c'⟩
    dsimp only
    cases dec with
    | some d => exact demuxStep_length_le _
    | none => exact h
  · exact demuxStep_length_le _

theorem streamFeed_length_le (env : Env) :
    ∀ (ds : List (List Nat)) (c : Crypto) (buffer : List Nat),
      buffer.length ≤ 1048576 →
      ((streamFeed env c buffer ds).2.1).length ≤ 1048576 := by
  intro ds
  induction ds with
  | nil =>
      intro c buffer h
      simpa [streamFeed] using h
  | cons d ds ih =>
      intro c buffer h
      rw [streamFeed]
      exact ih _ _ (streamStep_length_le env c buffer d h)

/-- Feeding marker-free chunks in degraded (plaintext) mode only accumulates
and trims: no unit is ever extracted, and the retained buffer is exactly the
final 1 MiB of everything fed. -/
theorem streamFeed_plain (env : Env) :
    ∀ (ds : List (List Nat)) (c : Crypto) (buffer : List Nat),
      c.decryption_key = none → buffer.length ≤ 1048576 →
      markerFree (buffer ++ ds.flatten) →
      streamFeed env c buffer ds = (c, retained (buffer ++ ds.flatten), []) := by
  intro ds
  induction ds with
  | nil =>
      intro c buffer hkey hlen hm
      simp [streamFeed, retained_of_le buffer hlen]
  | cons d ds ih =>
      intro c buffer hkey hlen hm
      have hW : markerFree ((buffer ++ d) ++ ds.flatten) := by
        rw [List.append_assoc]
        simpa using hm
      have hmbd : markerFree (buffer ++ d) := by
        have := markerFree_take _ (buffer ++ d).length hW
        rwa [List.take_left] at this
      have hstep := streamStep_plain env c buffer d hkey
      have hdm := demuxStep_markerFree (buffer ++ d) hmbd
      have hrec := ih c (retained (buffer ++ d)) hkey (retained_length _) (by
        unfold retained
        rw [← List.drop_append_of_le_length (Nat.sub_le _ _)]
        exact markerFree_drop _ _ hW)
      rw [streamFeed, hstep, hdm]
      simp only [hrec, hdm]
      rw [retained_append_retained]
      simp [List.append_assoc]

/-! ### Unreachability of the stream-decryption branch

`decryption_key` is assigned in exactly one place, inside `decrypt_data`, and
`decrypt_data` is called in exactly one place, inside the stream loop's
`if self.crypto.is_paired and self.crypto.decryption_key:` branch.  No other
operation touches the field, so it can never leave `None`. -/

theorem setup_srp_preserves_key (c : Crypto) (r16 sp : List Nat)
    (sess : Option SrpSession) :
    ((c.setup_srp r16 sp sess).2).decryption_key = c.decryption_key := by
  unfold Crypto.setup_srp
  split <;> rfl

theorem verify_srp_preserves_key (c : Crypto) (r64 cpk cpf : List Nat) :
    ((c.verify_srp r64 cpk cpf).2).decryption_key = c.decryption_key := by
  unfold Crypto.verify_srp
  repeat' split
  all_goals rfl

theorem setup_curve25519_preserves_key (c : Crypto) (r32 kp : List Nat) :
    ((c.setup_curve25519 r32 kp).2).decryption_key = c.decryption_key := by
  unfold Crypto.setup_curve25519
  split <;> rfl

theorem compute_shared_secret_preserves_key
    (hkdf : String → String → List Nat → List Nat) (c : Crypto)
    (r32 cpk spk : List Nat) :
    ((Crypto.compute_shared_secret hkdf c r32 cpk spk).2).decryption_key
      = c.decryption_key := by
  unfold Crypto.compute_shared_secret
  split <;> rfl

theorem encrypt_data_preserves_key
    (hkdf : String → String → List Nat → List Nat)
    (aeadEnc : List Nat → List Nat → List Nat → List Nat) (c : Crypto)
    (rct nonce pt : List Nat) :
    ((Crypto.encrypt_data hkdf aeadEnc c rct nonce pt).2).decryption_key
      = c.decryption_key := by
  unfold Crypto.encrypt_data
  repeat' split
  all_goals rfl

theorem handle_pair_setup_preserves_key (env : Env) (c : Crypto)
    (body resp : List Nat) (c' : Crypto)
    (h : handle_pair_setup env c body = Except.ok (resp, c')) :
    c'.decryption_key = c.decryption_key := by
  unfold handle_pair_setup at h
  dsimp only at h
  split at h
  · exact absurd h (by simp)
  · split at h
    · simp only [Except.ok.injEq, Prod.mk.injEq] at h
      rw [← h.2]
      exact setup_srp_preserves_key c env.rand16 env.serverPub384 env.newSession
    · split at h
      · split at h
        · simp only [Except.ok.injEq, Prod.mk.injEq] at h
          rw [← h.2]
          exact verify_srp_preserves_key c env.rand64 _ _
        · simp only [Except.ok.injEq, Prod.mk.injEq] at h
          rw [← h.2]
          exact verify_srp_preserves_key c env.rand64 _ _
      · split at h
        · simp only [Except.ok.injEq, Prod.mk.injEq] at h
          rw [← h.2]
        · exact absurd h (by simp)

theorem handle_pair_verify_preserves_key (env : Env) (c : Crypto)
    (body resp : List Nat) (c' : Crypto)
    (h : handle_pair_verify env c body = Except.ok (resp, c')) :
    c'.decryption_key = c.decryption_key := by
  unfold handle_pair_verify at h
  dsimp only at h
  split at h
  · exact absurd h (by simp)
  · split at h
    · simp only [Except.ok.injEq, Prod.mk.injEq] at h
      rw [← h.2]
      rw [encrypt_data_preserves_key, compute_shared_secret_preserves_key,
          setup_curve25519_preserves_key]
    · split at h
      · simp only [Except.ok.injEq, Prod.mk.injEq] at h
        rw [← h.2]
      · split at h
        · simp only [Except.ok.injEq, Prod.mk.injEq] at h
          rw [← h.2]
        · exact absurd h (by simp)

/-- The stream step leaves the crypto object untouched whenever no decryption
key exists: the guard is false, so `decrypt_data` is unreachable. -/
theorem streamStep_crypto_of_key_none (env : Env) (c : Crypto)
    (buffer data : List Nat) (h : c.decryption_key = none) :
    (streamStep env c buffer data).1 = c := by
  rw [streamStep_plain env c buffer data h]

theorem stepEvent_key_none (env : Env) (s : Crypto × List Nat) (e : Event)
    (h : s.1.decryption_key = none) :
    (stepEvent env s e).1.decryption_key = none := by
  cases e with
  | pairSetup body =>
      simp only [stepEvent]
      rcases hh : handle_pair_setup env s.1 body with he | ⟨resp, c'⟩
      · exact h
      · dsimp only
        rw [handle_pair_setup_preserves_key env s.1 body resp c' hh]
        exact h
  | pairVerify body =>
      simp only [stepEvent]
      rcases hh : handle_pair_verify env s.1 body with he | ⟨resp, c'⟩
      · exact h
      · dsimp only
        rw [handle_pair_verify_preserves_key env s.1 body resp c' hh]
        exact h
  | streamChunk d =>
      simp only [stepEvent]
      rw [streamStep_crypto_of_key_none env s.1 s.2 d h]
      exact h
  | otherRequest => exact h

theorem runEvents_key_none (env : Env) :
    ∀ (evs : List Event) (s : Crypto × List Nat),
      s.1.decryption_key = none →
      (runEvents env s evs).1.decryption_key = none := by
  intro evs
  induction evs with
  | nil => intro s h; exact h
  | cons e es ih =>
      intro s h
      rw [runEvents]
      exact ih _ (stepEvent_key_none env s e h)

/-! ## Claim theorems -/

/-- C6 (counterexample): the round-trip fails at the empty value — encoding
emits the empty byte string, so the decoded mapping has no entry at the
type id at all (Python `Decode(Encode(5, b''))[5]` raises `KeyError`),
instead of yielding the empty value. -/
theorem spec_C6_counterexample :
    tlvGet (tlv8_decode (tlv8_encode 5 [])) 5 ≠ some [] ∧
      tlvGet (tlv8_decode (tlv8_encode 5 [])) 5 = none := by
  have h : tlvGet (tlv8_decode (tlv8_encode 5 [])) 5 = none := by
    simp [tlv8_encode, tlv8_decode, tlv8_decodeAux, tlvGet]
  exact ⟨by rw [h]; simp, h⟩

/-- C6 (amended): for every type id byte and every non-empty byte value of
length at most 2000, decoding the encoding yields that value at the type id:
`Decode(Encode(type_id, value))[type_id] == value`.  The empty value must be
excluded: it encodes to the empty record sequence. -/
theorem spec_C6_amended (t : Nat) (v : List Nat) (ht : t ≤ 255)
    (hbytes : ∀ b ∈ v, b ≤ 255) (h1 : 1 ≤ v.length) (h2 : v.length ≤ 2000) :
    tlvGet (tlv8_decode (tlv8_encode t v)) t = some v :=
  tlvGet_decode_encode t v (by
    intro hn
    rw [hn] at h1
    simp at h1)

/-- C6 (witness): the amended round-trip at a concrete input. -/
theorem spec_C6_witness :
    tlvGet (tlv8_decode (tlv8_encode 5 [7])) 5 = some [7] :=
  spec_C6_amended 5 [7] (by decide) (by decide) (by decide) (by decide)

/-- C7 (counterexample): a zero-length value does *not* produce the two-byte
record `{type_id, 0}` — `tlv8_encode` emits the empty byte string, unlike the
record-per-chunk encoder written from the specification. -/
theorem spec_C7_counterexample :
    tlv8_encode 5 [] = [] ∧ tlv8_encode_spec 5 [] = [5, 0] ∧
      ([] : List Nat) ≠ [5, 0] := by
  refine ⟨by simp [tlv8_encode], ?_, by simp⟩
  simp [tlv8_encode_spec, chunkSplit, tlvRecord]

/-- C7 (amended): for every non-empty value the encoder splits it into chunks
of at most 255 bytes and emits one `{type_id, chunk_length, chunk}` record per
chunk; a zero-length value emits no record at all (the empty byte string,
not `{type_id, 0}`). -/
theorem spec_C7_amended :
    (∀ t v, v ≠ [] → tlv8_encode t v = tlv8_encode_spec t v) ∧
      (∀ t, tlv8_encode t [] = []) := by
  refine ⟨tlv8_encode_eq_spec, fun t => ?_⟩
  simp [tlv8_encode]

/-- C7 (witness): the amended chunking equality at a concrete input. -/
theorem spec_C7_witness :
    tlv8_encode 3 [9, 9] = tlv8_encode_spec 3 [9, 9] :=
  spec_C7_amended.1 3 [9, 9] (by decide)

/-- C2 (code_bug evidence): for *every* state-3 pair-verify request — here an
arbitrary 8-byte garbage confirmation blob — the handler performs no
decryption or verification, unconditionally marks the session paired, and
answers state 4 with no error attribute (`tlvGet … 7 = none`); the claim
(and the source's own comment, "In a full implementation, we would decrypt
and verify") requires verification before `Paired` and error code 1 on
failure. -/
theorem spec_C2_code_eval (env : Env) (c : Crypto) :
    handle_pair_verify env c
        (tlv8_encode 6 [3] ++ tlv8_encode 5 (List.replicate 8 255))
      = Except.ok (tlv8_encode 6 [4], { c with is_paired := true }) ∧
      tlvGet (tlv8_decode (tlv8_encode 6 [4])) 7 = none := by
  have hbody : tlv8_decode (tlv8_encode 6 [3] ++ tlv8_encode 5 (List.replicate 8 255))
      = [(6, [3]), (5, List.replicate 8 255)] := by
    unfold tlv8_decode
    rw [tlv8_decodeAux_encode_append 6 [3] _ [] (by simp)]
    rw [← List.append_nil (tlv8_encode 5 (List.replicate 8 255))]
    rw [tlv8_decodeAux_encode_append 5 (List.replicate 8 255) [] _ (by simp)]
    rw [tlv8_decodeAux]
    rfl
  constructor
  · unfold handle_pair_verify
    rw [hbody]
    simp [tlvGet]
  · simp [tlv8_encode, tlv8_decode, tlv8_decodeAux, dictAdd, tlvGet]

/-- C3 (code_bug evidence): the session "shared secret" is HKDF applied to
the bare concatenation `client_public ++ server_public` — no Diffie–Hellman
computation and no private-key input exists anywhere in the derivation — so
any two key pairs with the same concatenation yield the same secret.  The
claim (and the function's own docstring, "Compute shared secret using ECDH")
requires an ECDH shared value to be computed first. -/
theorem spec_C3_code_eval (hkdf : String → String → List Nat → List Nat)
    (c₁ c₂ : Crypto) (r₁ r₂ : List Nat) (cp₁ sp₁ cp₂ sp₂ : List Nat)
    (h₁ : c₁.cryptoAvailable = true) (h₂ : c₂.cryptoAvailable = true)
    (hcat : cp₁ ++ sp₁ = cp₂ ++ sp₂) :
    (Crypto.compute_shared_secret hkdf c₁ r₁ cp₁ sp₁).1
        = hkdf "Pair-Verify-Encrypt-Salt" "Pair-Verify-Encrypt-Info" (cp₁ ++ sp₁) ∧
      (Crypto.compute_shared_secret hkdf c₁ r₁ cp₁ sp₁).1
        = (Crypto.compute_shared_secret hkdf c₂ r₂ cp₂ sp₂).1 := by
  unfold Crypto.compute_shared_secret
  rw [h₁, h₂]
  refine ⟨rfl, ?_⟩
  rw [hcat]
  simp

/-- C3 (witness): two different splits of the same bytes into (client, server)
public keys — `([1], [2,3])` versus `([1,2], [3])` — produce the same derived
secret. -/
theorem spec_C3_witness :
    (Crypto.compute_shared_secret (fun _ _ ikm => ikm.take 32)
        (initCrypto true true) [] [1] [2, 3]).1
      = (Crypto.compute_shared_secret (fun _ _ ikm => ikm.take 32)
        (initCrypto true true) [] [1, 2] [3]).1 :=
  (spec_C3_code_eval (fun _ _ ikm => ikm.take 32) (initCrypto true true)
    (initCrypto true true) [] [] [1] [2, 3] [1, 2] [3] rfl rfl (by decide)).2

/-- C5 (counterexample): a received state byte of 255 in either handshake
makes `bytes([state + 1])` raise `ValueError` (256 does not fit in a byte);
the exception escapes to `_handle_client`, which closes the connection — so
the connection *is* dropped, contradicting the claim's "including the maximum
value 255". -/
theorem spec_C5_counterexample :
    handle_pair_setup envA (initCrypto true true) (tlv8_encode 6 [255])
        = Except.error () ∧
      handle_pair_verify envA (initCrypto true true) (tlv8_encode 6 [255])
        = Except.error () := by
  have hdec : tlv8_decode (tlv8_encode 6 [255]) = [(6, [255])] := by
    unfold tlv8_decode
    rw [tlv8_decodeAux_encode 6 [255] [] (by simp)]
    rfl
  constructor
  · unfold handle_pair_setup
    rw [hdec]
    simp [tlvGet, pyByte]
  · unfold handle_pair_verify
    rw [hdec]
    simp [tlvGet, pyByte]

/-- C5 (amended): for every received handshake state byte outside `{1, 3}`
and *below 255*, both handlers answer state+1 together with error code 1 and
the connection stays open (the handler returns normally); at state byte 255
the response-state construction overflows and the connection is closed. -/
theorem spec_C5_amended (env : Env) (c : Crypto) (state : Nat)
    (hne1 : state ≠ 1) (hne3 : state ≠ 3) (hlt : state < 255) :
    handle_pair_setup env c (tlv8_encode 6 [state])
        = Except.ok (tlv8_encode 6 [state + 1] ++ tlv8_encode 7 [1], c) ∧
      handle_pair_verify env c (tlv8_encode 6 [state])
        = Except.ok (tlv8_encode 6 [state + 1] ++ tlv8_encode 7 [1], c) := by
  have hdec : tlv8_decode (tlv8_encode 6 [state]) = [(6, [state])] := by
    unfold tlv8_decode
    rw [tlv8_decodeAux_encode 6 [state] [] (by simp)]
    rfl
  have hb : pyByte (state + 1) = .ok [state + 1] := by
    unfold pyByte
    rw [if_pos (by omega)]
  constructor
  · unfold handle_pair_setup
    rw [hdec]
    simp [tlvGet, hne1, hne3, hb]
  · unfold handle_pair_verify
    rw [hdec]
    simp [tlvGet, hne1, hne3, hb]

/-- C5 (witness): the amended behaviour at the concrete unknown state 7. -/
theorem spec_C5_witness :
    handle_pair_setup envA (initCrypto true true) (tlv8_encode 6 [7])
        = Except.ok (tlv8_encode 6 [8] ++ tlv8_encode 7 [1],
            initCrypto true true) ∧
      handle_pair_verify envA (initCrypto true true) (tlv8_encode 6 [7])
        = Except.ok (tlv8_encode 6 [8] ++ tlv8_encode 7 [1],
            initCrypto true true) :=
  spec_C5_amended envA (initCrypto true true) 7 (by decide) (by decide)
    (by decide)

/-- C1 (code_bug evidence): a state-3 pair-setup request handled while no SRP
session exists (the shipped code's situation whenever the srp library is
missing, or whenever the inner verification raises — with `pysrp` it always
does, since `Verifier` has no `set_A`) is answered with state 4 and a *proof
attribute carrying 64 random bytes* (`verify_srp` returns `os.urandom(64)`),
and no error attribute — the mismatched proof "succeeds" silently, where the
claim (and `verify_srp`'s own docstring, "Server proof (M2) if verification
succeeds, None otherwise") requires error code 2 and never a proof value. -/
theorem spec_C1_code_eval (env : Env) (c : Crypto)
    (hsrp : c.srp_session = none) (h64 : env.rand64.length = 64) :
    handle_pair_setup env c
        (tlv8_encode 6 [3] ++ tlv8_encode 3 [171] ++ tlv8_encode 4 [205])
      = Except.ok (tlv8_encode 6 [4] ++ tlv8_encode 4 env.rand64, c) ∧
      tlvGet (tlv8_decode (tlv8_encode 6 [4] ++ tlv8_encode 4 env.rand64)) 4
        = some env.rand64 ∧
      tlvGet (tlv8_decode (tlv8_encode 6 [4] ++ tlv8_encode 4 env.rand64)) 7
        = none := by
  have hne : env.rand64 ≠ [] := by
    intro hnil
    rw [hnil] at h64
    simp at h64
  have hbody : tlv8_decode
        (tlv8_encode 6 [3] ++ tlv8_encode 3 [171] ++ tlv8_encode 4 [205])
      = [(6, [3]), (3, [171]), (4, [205])] := by
    unfold tlv8_decode
    rw [List.append_assoc]
    rw [tlv8_decodeAux_encode_append 6 [3] _ [] (by simp)]
    rw [tlv8_decodeAux_encode_append 3 [171] _ _ (by simp)]
    rw [tlv8_decodeAux_encode 4 [205] _ (by simp)]
    rfl
  have hresp : tlv8_decode (tlv8_encode 6 [4] ++ tlv8_encode 4 env.rand64)
      = [(6, [4]), (4, env.rand64)] := by
    unfold tlv8_decode
    rw [tlv8_decodeAux_encode_append 6 [4] _ [] (by simp)]
    rw [tlv8_decodeAux_encode 4 env.rand64 _ hne]
    rfl
  refine ⟨?_, ?_, ?_⟩
  · unfold handle_pair_setup
    rw [hbody]
    simp [tlvGet, Crypto.verify_srp, hsrp, hne]
  · rw [hresp]
    simp [tlvGet]
  · rw [hresp]
    simp [tlvGet]

/-- C1 (witness): the silent-success response at a concrete environment whose
fallback "proof" is 64 bytes of 9s. -/
theorem spec_C1_witness :
    handle_pair_setup envA (initCrypto true true)
        (tlv8_encode 6 [3] ++ tlv8_encode 3 [171] ++ tlv8_encode 4 [205])
      = Except.ok (tlv8_encode 6 [4] ++ tlv8_encode 4 envA.rand64,
          initCrypto true true) :=
  (spec_C1_code_eval envA (initCrypto true true) rfl rfl).1

/-- C4: over every sequence of requests and stream chunks starting from a
fresh `AirPlayCrypto`, `decryption_key` remains `None` — it is assigned only
inside `decrypt_data`, which is reachable only through the stream-loop guard
that already requires it to be truthy — and therefore the next inbound stream
chunk is always appended to the demux buffer without decryption: the decrypt
branch of the stream path is unreachable. -/
theorem spec_C4_invariant (env : Env) (srpA cryptoA : Bool)
    (evs : List Event) (d : List Nat) :
    (runEvents env (initCrypto srpA cryptoA, []) evs).1.decryption_key = none ∧
      streamStep env (runEvents env (initCrypto srpA cryptoA, []) evs).1
          (runEvents env (initCrypto srpA cryptoA, []) evs).2 d
        = ((runEvents env (initCrypto srpA cryptoA, []) evs).1,
           (demuxStep ((runEvents env (initCrypto srpA cryptoA, []) evs).2 ++ d)).1,
           (demuxStep ((runEvents env (initCrypto srpA cryptoA, []) evs).2 ++ d)).2) := by
  have hkey := runEvents_key_none env evs (initCrypto srpA cryptoA, []) rfl
  exact ⟨hkey, streamStep_plain env _ _ d hkey⟩

/-- C8: after processing any sequence of inbound chunks the demux buffer
never exceeds the 1 MiB cap; and feeding any amount of marker-free bytes, in
any chunk sizes, retains exactly the final 1 MiB of the fed bytes (oldest
discarded) while submitting nothing to the decoder. -/
theorem spec_C8_bound :
    (∀ (env : Env) (c : Crypto) (chunks : List (List Nat)),
        ((streamFeed env c [] chunks).2.1).length ≤ 1048576) ∧
      (∀ (env : Env) (c : Crypto) (chunks : List (List Nat)),
        c.decryption_key = none → markerFree chunks.flatten →
        streamFeed env c [] chunks = (c, retained chunks.flatten, [])) := by
  constructor
  · intro env c chunks
    exact streamFeed_length_le env chunks c [] (by simp)
  · intro env c chunks hkey hm
    have h := streamFeed_plain env chunks c [] hkey (by simp) (by simpa using hm)
    simpa using h

/-- C8 (witness): the retention behaviour at a concrete marker-free feed. -/
theorem spec_C8_witness :
    streamFeed envA (initCrypto false false) [] [[2, 2], [2]]
      = (initCrypto false false, retained [2, 2, 2], []) := by
  have h := spec_C8_bound.2 envA (initCrypto false false) [[2, 2], [2]] rfl
    (by decide)
  simpa using h

/-- C9 (counterexample): feeding `<marker><A><marker><B>` in two chunk
deliveries, the bytes submitted to the decoder are `marker ++ A` — the slice
`buffer[nal_start:next_nal]` *includes* the leading 4-byte start marker — and
not the bytes strictly between the two markers, as the claim states. -/
theorem spec_C9_counterexample :
    (streamFeed envA (initCrypto false false) []
        [marker ++ demoA, marker ++ demoB]).2.2 = [marker ++ demoA] ∧
      marker ++ demoA ≠ demoA := by
  have hA : markerFree demoA :=
    markerFree_of_one_not_mem _ (by
      rw [demoA]
      simp only [List.mem_replicate]
      omega)
  have h1 : streamStep envA (initCrypto false false) [] (marker ++ demoA)
      = (initCrypto false false, marker ++ demoA, none) := by
    rw [streamStep_plain _ _ _ _ rfl, List.nil_append,
        demuxStep_no_second demoA hA (by norm_num [demoA])]
  have h2 : streamStep envA (initCrypto false false) (marker ++ demoA)
        (marker ++ demoB)
      = (initCrypto false false, marker ++ demoB, some (marker ++ demoA)) := by
    rw [streamStep_plain _ _ _ _ rfl,
        demuxStep_two_markers demoA demoB hA (by norm_num [demoA, demoB])
          (by norm_num [demoA, demoB])]
  constructor
  · simp [streamFeed, h1, h2]
  · intro hc
    have hlc := congrArg List.length hc
    rw [List.length_append] at hlc
    have hm4 : marker.length = 4 := rfl
    rw [hm4] at hlc
    omega
/-- C9 (amended): feeding `<marker><A><marker><B>` across two separate chunk
deliveries (A marker-free, total over the 1024-byte scan threshold and within
the cap, plaintext path), the demuxer submits to the decoder exactly the
start-code-prefixed unit `marker ++ A` — the bytes from the first marker
inclusive to the second exclusive — and advances the buffer to begin at the
second marker (`marker ++ B`). -/
theorem spec_C9_amended (env : Env) (c : Crypto) (A B : List Nat)
    (hkey : c.decryption_key = none) (hA : markerFree A)
    (hlen : 1024 < 8 + A.length + B.length)
    (hcap : 8 + A.length + B.length ≤ 1048576) :
    streamFeed env c [] [marker ++ A, marker ++ B]
      = (c, marker ++ B, [marker ++ A]) := by
  have h1 : streamStep env c [] (marker ++ A) = (c, marker ++ A, none) := by
    rw [streamStep_plain env c [] (marker ++ A) hkey, List.nil_append,
        demuxStep_no_second A hA (by omega)]
  have h2 : streamStep env c (marker ++ A) (marker ++ B)
      = (c, marker ++ B, some (marker ++ A)) := by
    rw [streamStep_plain env c (marker ++ A) (marker ++ B) hkey,
        demuxStep_two_markers A B hA hlen hcap]
  simp [streamFeed, h1, h2]

/-- C9 (witness): the amended submission behaviour at a concrete feed. -/
theorem spec_C9_witness :
    streamFeed envA (initCrypto false false) []
        [marker ++ List.replicate 1021 7, marker ++ [8]]
      = (initCrypto false false, marker ++ [8],
         [marker ++ List.replicate 1021 7]) :=
  spec_C9_amended envA (initCrypto false false) (List.replicate 1021 7) [8]
    rfl (markerFree_of_one_not_mem _ (by
      simp only [List.mem_replicate]
      omega))
    (by
      simp only [List.length_replicate, List.length_cons, List.length_nil]
      omega)
    (by
      simp only [List.length_replicate, List.length_cons, List.length_nil]
      omega)

/-- C10 (counterexample): with the sink at capacity, `add_stream` returns
`false`, yet the AirPlay stream handler has already sent `200 OK`, discards
that result and enters the ingest loop anyway — no service-unavailable (503)
response is produced. -/
theorem spec_C10_counterexample :
    (mgrFull.add_stream "b" (some 0) "AirPlay: iPhone" 0).1 = false ∧
      handle_stream_start mgrFull "b" "iPhone" 0
        = ({ status := 200, registered := false, streaming := true }, mgrFull) ∧
      (200 : Nat) ≠ 503 := by
  refine ⟨rfl, rfl, by decide⟩

/-- C10 (amended): whenever the sink is at maximum capacity, `Register`
(`add_stream`) does return `false`; but the core does not reject the session:
the stream handler answers 200 (already written before the capacity check),
ignores the `false`, and proceeds to stream with the session unregistered. -/
theorem spec_C10_amended (m : StreamManager) (cid dn nm : String)
    (fr : Option Nat) (now : Nat) (h : m.max_streams ≤ m.streams.length) :
    (m.add_stream cid fr nm now).1 = false ∧
      handle_stream_start m cid dn now
        = ({ status := 200, registered := false, streaming := true }, m) := by
  have ha : ∀ (fr' : Option Nat) (nm' : String),
      m.add_stream cid fr' nm' now = (false, m) := by
    intro fr' nm'
    unfold StreamManager.add_stream
    rw [if_pos h]
  refine ⟨by rw [ha fr nm], ?_⟩
  unfold handle_stream_start
  rw [ha (some 0) ("AirPlay: " ++ dn)]

/-- C10 (witness): the amended behaviour at a concrete full sink. -/
theorem spec_C10_witness :
    (mgrFull.add_stream "c" none "N" 1).1 = false ∧
      handle_stream_start mgrFull "c" "Pad" 1
        = ({ status := 200, registered := false, streaming := true }, mgrFull) :=
  spec_C10_amended mgrFull "c" "Pad" "N" none 1 (by decide)

end Receiver
